import Mathlib

/-!
Verification of the k8s-danger-scan rule engine, scan orchestrator and
aggregator against its natural-language specification.

The Go source is shallowly embedded: YAML trees become the tagged union
`Value`, Go type assertions `x[k].(T)` become total `Option`-valued
accessors, the rule functions, `Scan`, `Diff`, `GetSummary` and
`GetExitCode` are translated function-by-function, and Go's
`map[string]bool` sets become `Finset String`.
-/

/-- Value is the embedding of a decoded YAML value (Go `interface{}`):
null, booleans, integers, strings, sequences and string-keyed mappings. -/
inductive Value where
  | vNull : Value
  | vBool : Bool → Value
  | vInt : Int → Value
  | vStr : String → Value
  | vSeq : List Value → Value
  | vMap : List (String × Value) → Value

/-- assocGet models Go map indexing `m[k]` on a string-keyed map,
returning `none` when the key is absent. -/
def assocGet {α : Type} : List (String × α) → String → Option α
  | [], _ => none
  | (k, v) :: rest, key => if k = key then some v else assocGet rest key

/-- getMap models the Go two-value type assertion `m[k].(map[string]interface{})`:
it succeeds only when the key is present and its value is a mapping. -/
def getMap (m : List (String × Value)) (k : String) : Option (List (String × Value)) :=
  match assocGet m k with
  | some (Value.vMap inner) => some inner
  | _ => none

/-- getBool models the Go type assertion `m[k].(bool)`. -/
def getBool (m : List (String × Value)) (k : String) : Option Bool :=
  match assocGet m k with
  | some (Value.vBool b) => some b
  | _ => none

/-- getInt models the Go type assertion `m[k].(int)`. -/
def getInt (m : List (String × Value)) (k : String) : Option Int :=
  match assocGet m k with
  | some (Value.vInt n) => some n
  | _ => none

/-- getStr models the Go type assertion `m[k].(string)`. -/
def getStr (m : List (String × Value)) (k : String) : Option String :=
  match assocGet m k with
  | some (Value.vStr s) => some s
  | _ => none

/-- getSeq models the Go type assertion `m[k].([]interface{})`. -/
def getSeq (m : List (String × Value)) (k : String) : Option (List Value) :=
  match assocGet m k with
  | some (Value.vSeq xs) => some xs
  | _ => none

/-- asMap models the Go type assertion `v.(map[string]interface{})` on a
sequence element. -/
def asMap : Value → Option (List (String × Value))
  | Value.vMap m => some m
  | _ => none

/-- hasSubList decides whether `pat` occurs as a contiguous sublist,
modelling Go `strings.Contains`. -/
def hasSubList (pat : List Char) : List Char → Bool
  | [] => pat.isEmpty
  | c :: rest => pat.isPrefixOf (c :: rest) || hasSubList pat rest

/-- strContains models Go `strings.Contains` on strings. -/
def strContains (s pat : String) : Bool :=
  hasSubList pat.data s.data

/-- strEndsWith models Go `strings.HasSuffix`. -/
def strEndsWith (s pat : String) : Bool :=
  pat.data.isSuffixOf s.data

namespace types

/-- Severity is the Go `type Severity string`. -/
abbrev Severity := String

/-- High severity constant, Go `types.High`. -/
def High : Severity := "HIGH"

/-- Medium severity constant, Go `types.Medium`. -/
def Medium : Severity := "MEDIUM"

/-- Finding is one detected rule violation (Go `types.Finding`). The Go
field `Namespace` is called `nspace` here because `namespace` is a Lean
keyword. -/
structure Finding where
  ruleID : String
  severity : Severity
  kind : String
  name : String
  nspace : String
  reason : String
  impact : String
  fix : String
deriving DecidableEq

/-- Summary is the aggregate counters of Go `types.Summary`. -/
structure Summary where
  high : Nat
  medium : Nat
  resourcesAffected : Nat
  namespacesAffected : Nat
deriving DecidableEq

/-- ExitCode is the Go `type ExitCode int`. -/
abbrev ExitCode := Int

/-- ExitOK is exit code 0: no findings. -/
def ExitOK : ExitCode := 0

/-- ExitMedium is exit code 1: medium risk only. -/
def ExitMedium : ExitCode := 1

/-- ExitHigh is exit code 2: at least one high risk. -/
def ExitHigh : ExitCode := 2

/-- ExitError is exit code 3: an error occurred. -/
def ExitError : ExitCode := 3

end types

namespace parser

/-- Metadata of a resource (Go `parser.Metadata`); `nspace` stands for the
Go field `Namespace`, `annots` for `Annotations`. -/
structure Metadata where
  name : String
  nspace : String
  labels : List (String × String)
  annots : List (String × String)

/-- Rule is an RBAC rule entry of a Role or ClusterRole (Go `parser.Rule`). -/
structure Rule where
  apiGroups : List String
  resources : List String
  verbs : List String

/-- RoleRef of a RoleBinding or ClusterRoleBinding (Go `parser.RoleRef`). -/
structure RoleRef where
  apiGroup : String
  kind : String
  name : String

/-- Subject of a RoleBinding or ClusterRoleBinding (Go `parser.Subject`). -/
structure Subject where
  kind : String
  name : String
  nspace : String

/-- K8sResource is a parsed Kubernetes resource (Go `parser.K8sResource`);
the dynamically shaped `spec` tree is a string-keyed `Value` mapping. -/
structure K8sResource where
  apiVersion : String
  kind : String
  metadata : Metadata
  spec : List (String × Value)
  rules : List Rule
  roleRef : Option RoleRef
  subjects : List Subject

/-- IsSupportedKind checks membership in the fixed supported-kind set
(Go `parser.IsSupportedKind`). -/
def IsSupportedKind (kind : String) : Bool :=
  ["Pod", "Deployment", "StatefulSet", "DaemonSet", "Job", "CronJob",
   "Service", "Role", "ClusterRole", "RoleBinding",
   "ClusterRoleBinding"].contains kind

/-- GetPodSpec extracts the pod spec from a resource (Go `parser.GetPodSpec`):
the spec itself for kind Pod, otherwise the subtree at `spec.template.spec`
when that path is made of mappings, otherwise the subtree at
`spec.jobTemplate.spec.template.spec`, otherwise nothing. -/
def GetPodSpec (resource : K8sResource) : Option (List (String × Value)) :=
  if resource.kind = "Pod" then
    some resource.spec
  else
    match (getMap resource.spec "template").bind (fun template => getMap template "spec") with
    | some spec => some spec
    | none =>
      (getMap resource.spec "jobTemplate").bind fun jobTemplate =>
      (getMap jobTemplate "spec").bind fun spec =>
      (getMap spec "template").bind fun template =>
      getMap template "spec"

end parser

namespace rules

open types parser

/-- Rule is the Go rule function type: one resource in, findings out. -/
abbrev Rule := K8sResource → List Finding

/-- privilegedFinding is the finding literal of `CheckPrivilegedContainer`. -/
def privilegedFinding (resource : K8sResource) : Finding :=
  { ruleID := "privileged-container", severity := High,
    kind := resource.kind, name := resource.metadata.name,
    nspace := resource.metadata.nspace,
    reason := "Container runs in privileged mode",
    impact := "Full host access if container is compromised",
    fix := "Remove privileged flag or set to false" }

/-- privilegedLoop is the container loop of `CheckPrivilegedContainer`:
return on the first privileged container. -/
def privilegedLoop (resource : K8sResource) : List Value → List Finding
  | [] => []
  | c :: rest =>
    match asMap c with
    | none => privilegedLoop resource rest
    | some container =>
      match getMap container "securityContext" with
      | none => privilegedLoop resource rest
      | some securityContext =>
        match getBool securityContext "privileged" with
        | some true => [privilegedFinding resource]
        | _ => privilegedLoop resource rest

/-- CheckPrivilegedContainer is rule 1 (Go `rules.CheckPrivilegedContainer`). -/
def CheckPrivilegedContainer (resource : K8sResource) : List Finding :=
  match GetPodSpec resource with
  | none => []
  | some podSpec =>
    match getSeq podSpec "containers" with
    | none => []
    | some containers => privilegedLoop resource containers

/-- hostPathFinding is the finding literal of `CheckHostPath`. -/
def hostPathFinding (resource : K8sResource) : Finding :=
  { ruleID := "hostpath-volume", severity := High,
    kind := resource.kind, name := resource.metadata.name,
    nspace := resource.metadata.nspace,
    reason := "Uses hostPath volume mount",
    impact := "Direct filesystem access enables container escape",
    fix := "Use PersistentVolumes or emptyDir instead" }

/-- hostPathLoop is the volume loop of `CheckHostPath`: return on the first
volume entry carrying a `hostPath` key (presence of any value counts). -/
def hostPathLoop (resource : K8sResource) : List Value → List Finding
  | [] => []
  | v :: rest =>
    match asMap v with
    | none => hostPathLoop resource rest
    | some volume =>
      match assocGet volume "hostPath" with
      | some _ => [hostPathFinding resource]
      | none => hostPathLoop resource rest

/-- CheckHostPath is rule 2 (Go `rules.CheckHostPath`). -/
def CheckHostPath (resource : K8sResource) : List Finding :=
  match GetPodSpec resource with
  | none => []
  | some podSpec =>
    match getSeq podSpec "volumes" with
    | none => []
    | some volumes => hostPathLoop resource volumes

/-- dockerSocketFinding is the finding literal of `CheckDockerSocket`. -/
def dockerSocketFinding (resource : K8sResource) : Finding :=
  { ruleID := "docker-socket-mount", severity := High,
    kind := resource.kind, name := resource.metadata.name,
    nspace := resource.metadata.nspace,
    reason := "Mounts Docker socket from host",
    impact := "Grants root-equivalent access to the node",
    fix := "Remove Docker socket mount" }

/-- dockerSocketLoop is the volume loop of `CheckDockerSocket`. -/
def dockerSocketLoop (resource : K8sResource) : List Value → List Finding
  | [] => []
  | v :: rest =>
    match asMap v with
    | none => dockerSocketLoop resource rest
    | some volume =>
      match getMap volume "hostPath" with
      | none => dockerSocketLoop resource rest
      | some hostPath =>
        match getStr hostPath "path" with
        | none => dockerSocketLoop resource rest
        | some path =>
          if strContains path "/var/run/docker.sock" then [dockerSocketFinding resource]
          else dockerSocketLoop resource rest

/-- CheckDockerSocket is rule 3 (Go `rules.CheckDockerSocket`). -/
def CheckDockerSocket (resource : K8sResource) : List Finding :=
  match GetPodSpec resource with
  | none => []
  | some podSpec =>
    match getSeq podSpec "volumes" with
    | none => []
    | some volumes => dockerSocketLoop resource volumes

/-- runsAsRootFinding is the finding literal of `CheckRunsAsRoot` (identical
in both of its return sites). -/
def runsAsRootFinding (resource : K8sResource) : Finding :=
  { ruleID := "runs-as-root", severity := Medium,
    kind := resource.kind, name := resource.metadata.name,
    nspace := resource.metadata.nspace,
    reason := "Container runs as root user (UID 0)",
    impact := "Increases blast radius of container compromise",
    fix := "Set runAsNonRoot: true or runAsUser to non-zero UID" }

/-- runsAsRootLoop is the container loop of `CheckRunsAsRoot`: a container
without a securityContext mapping is judged by
`!podRunAsNonRoot && podRunAsUser != 0`, one with a securityContext by the
field-by-field inherited values and `!runAsNonRoot && (runAsUser == 0 ||
runAsUser == -1)`, exactly as in the Go source. -/
def runsAsRootLoop (resource : K8sResource) (podRunAsNonRoot : Bool)
    (podRunAsUser : Int) : List Value → List Finding
  | [] => []
  | c :: rest =>
    match asMap c with
    | none => runsAsRootLoop resource podRunAsNonRoot podRunAsUser rest
    | some container =>
      match getMap container "securityContext" with
      | none =>
        if !podRunAsNonRoot && podRunAsUser != 0 then [runsAsRootFinding resource]
        else runsAsRootLoop resource podRunAsNonRoot podRunAsUser rest
      | some securityContext =>
        let runAsNonRoot :=
          match getBool securityContext "runAsNonRoot" with
          | some val => val
          | none => podRunAsNonRoot
        let runAsUser :=
          match getInt securityContext "runAsUser" with
          | some val => val
          | none => podRunAsUser
        if !runAsNonRoot && (runAsUser == 0 || runAsUser == -1) then
          [runsAsRootFinding resource]
        else runsAsRootLoop resource podRunAsNonRoot podRunAsUser rest

/-- CheckRunsAsRoot is rule 4 (Go `rules.CheckRunsAsRoot`): the pod-level
securityContext yields default `runAsNonRoot`/`runAsUser` values (false and
-1 when absent), then the container loop runs. -/
def CheckRunsAsRoot (resource : K8sResource) : List Finding :=
  match GetPodSpec resource with
  | none => []
  | some podSpec =>
    let podSC := getMap podSpec "securityContext"
    let podRunAsNonRoot : Bool :=
      match podSC with
      | some podSecurityContext =>
        match getBool podSecurityContext "runAsNonRoot" with
        | some true => true
        | _ => false
      | none => false
    let podRunAsUser : Int :=
      match podSC with
      | some podSecurityContext =>
        match getInt podSecurityContext "runAsUser" with
        | some n => n
        | none => -1
      | none => -1
    match getSeq podSpec "containers" with
    | none => []
    | some containers => runsAsRootLoop resource podRunAsNonRoot podRunAsUser containers

/-- privEscFinding is the finding literal of `CheckPrivilegeEscalation`. -/
def privEscFinding (resource : K8sResource) : Finding :=
  { ruleID := "privilege-escalation-allowed", severity := High,
    kind := resource.kind, name := resource.metadata.name,
    nspace := resource.metadata.nspace,
    reason := "Allows privilege escalation within container",
    impact := "Enables container escape via kernel exploits",
    fix := "Set allowPrivilegeEscalation: false" }

/-- privEscLoop is the container loop of `CheckPrivilegeEscalation`. -/
def privEscLoop (resource : K8sResource) : List Value → List Finding
  | [] => []
  | c :: rest =>
    match asMap c with
    | none => privEscLoop resource rest
    | some container =>
      match getMap container "securityContext" with
      | none => privEscLoop resource rest
      | some securityContext =>
        match getBool securityContext "allowPrivilegeEscalation" with
        | some true => [privEscFinding resource]
        | _ => privEscLoop resource rest

/-- CheckPrivilegeEscalation is rule 5 (Go `rules.CheckPrivilegeEscalation`). -/
def CheckPrivilegeEscalation (resource : K8sResource) : List Finding :=
  match GetPodSpec resource with
  | none => []
  | some podSpec =>
    match getSeq podSpec "containers" with
    | none => []
    | some containers => privEscLoop resource containers

/-- wildcardFinding is the finding literal of `CheckWildcardRBAC`. -/
def wildcardFinding (resource : K8sResource) : Finding :=
  { ruleID := "wildcard-rbac", severity := High,
    kind := resource.kind, name := resource.metadata.name,
    nspace := resource.metadata.nspace,
    reason := "Grants wildcard permissions (verbs: *, resources: *)",
    impact := "Complete cluster control for any principal with this role",
    fix := "Specify explicit verbs and resources" }

/-- wildcardLoop is the RBAC rule-entry loop of `CheckWildcardRBAC`; the Go
inner loops with break compute exactly list membership of the value `*`. -/
def wildcardLoop (resource : K8sResource) : List parser.Rule → List Finding
  | [] => []
  | rule :: rest =>
    if rule.verbs.contains "*" && rule.resources.contains "*" then
      [wildcardFinding resource]
    else wildcardLoop resource rest

/-- CheckWildcardRBAC is rule 6 (Go `rules.CheckWildcardRBAC`). -/
def CheckWildcardRBAC (resource : K8sResource) : List Finding :=
  if resource.kind ≠ "Role" ∧ resource.kind ≠ "ClusterRole" then []
  else wildcardLoop resource resource.rules

/-- defaultSAFinding is the finding literal of `CheckClusterRoleBindingDefaultSA`. -/
def defaultSAFinding (resource : K8sResource) : Finding :=
  { ruleID := "clusterrolebinding-default-sa", severity := High,
    kind := resource.kind, name := resource.metadata.name,
    nspace := resource.metadata.nspace,
    reason := "Binds permissions to default service account",
    impact := "All pods without explicit SA inherit these permissions",
    fix := "Create and use a dedicated ServiceAccount" }

/-- defaultSALoop is the subject loop of `CheckClusterRoleBindingDefaultSA`. -/
def defaultSALoop (resource : K8sResource) : List Subject → List Finding
  | [] => []
  | subject :: rest =>
    if subject.kind == "ServiceAccount" && subject.name == "default" then
      [defaultSAFinding resource]
    else defaultSALoop resource rest

/-- CheckClusterRoleBindingDefaultSA is rule 7
(Go `rules.CheckClusterRoleBindingDefaultSA`). -/
def CheckClusterRoleBindingDefaultSA (resource : K8sResource) : List Finding :=
  if resource.kind ≠ "ClusterRoleBinding" ∧ resource.kind ≠ "RoleBinding" then []
  else defaultSALoop resource resource.subjects

/-- publicLBFinding is the finding literal of `CheckPublicLoadBalancer`; the
reason interpolates the namespace like the Go `fmt.Sprintf`. -/
def publicLBFinding (resource : K8sResource) : Finding :=
  { ruleID := "public-loadbalancer", severity := High,
    kind := resource.kind, name := resource.metadata.name,
    nspace := resource.metadata.nspace,
    reason := "LoadBalancer service in " ++ resource.metadata.nspace ++ " namespace",
    impact := "Exposes internal services directly to the internet",
    fix := "Use ClusterIP with Ingress, or add explicit justification" }

/-- CheckPublicLoadBalancer is rule 8 (Go `rules.CheckPublicLoadBalancer`). -/
def CheckPublicLoadBalancer (resource : K8sResource) : List Finding :=
  if resource.kind ≠ "Service" then []
  else
    let sensitiveNamespaces : List String := ["kube-system", "prod", "production"]
    if ¬ sensitiveNamespaces.contains resource.metadata.nspace then []
    else
      match getStr resource.spec "type" with
      | some svcType =>
        if svcType == "LoadBalancer" then [publicLBFinding resource] else []
      | none => []

/-- nodePortFinding is the finding literal of `CheckNodePort`. -/
def nodePortFinding (resource : K8sResource) : Finding :=
  { ruleID := "nodeport-service", severity := Medium,
    kind := resource.kind, name := resource.metadata.name,
    nspace := resource.metadata.nspace,
    reason := "NodePort service without justification annotation",
    impact := "Bypasses ingress controls and exposes port on all nodes",
    fix := "Use ClusterIP/LoadBalancer or add annotation: danger-scan/nodeport-justified" }

/-- CheckNodePort is rule 9 (Go `rules.CheckNodePort`). -/
def CheckNodePort (resource : K8sResource) : List Finding :=
  if resource.kind ≠ "Service" then []
  else
    match getStr resource.spec "type" with
    | some svcType =>
      if svcType == "NodePort" then
        match assocGet resource.metadata.annots "danger-scan/nodeport-justified" with
        | some _ => []
        | none => [nodePortFinding resource]
      else []
    | none => []

/-- latestTagFinding is the finding literal of `CheckLatestTag`. -/
def latestTagFinding (resource : K8sResource) : Finding :=
  { ruleID := "latest-image-tag", severity := Medium,
    kind := resource.kind, name := resource.metadata.name,
    nspace := resource.metadata.nspace,
    reason := "Uses :latest or untagged image",
    impact := "Non-reproducible deployments and potential supply chain risk",
    fix := "Pin to specific image digest or semantic version" }

/-- latestTagLoop is the container loop of `CheckLatestTag`. -/
def latestTagLoop (resource : K8sResource) : List Value → List Finding
  | [] => []
  | c :: rest =>
    match asMap c with
    | none => latestTagLoop resource rest
    | some container =>
      match getStr container "image" with
      | none => latestTagLoop resource rest
      | some image =>
        if strEndsWith image ":latest" || !strContains image ":" then
          [latestTagFinding resource]
        else latestTagLoop resource rest

/-- CheckLatestTag is rule 10 (Go `rules.CheckLatestTag`). -/
def CheckLatestTag (resource : K8sResource) : List Finding :=
  match GetPodSpec resource with
  | none => []
  | some podSpec =>
    match getSeq podSpec "containers" with
    | none => []
    | some containers => latestTagLoop resource containers

/-- hostNetworkFinding is the finding literal of `CheckHostNetwork`. -/
def hostNetworkFinding (resource : K8sResource) : Finding :=
  { ruleID := "host-network", severity := High,
    kind := resource.kind, name := resource.metadata.name,
    nspace := resource.metadata.nspace,
    reason := "Uses host network namespace",
    impact := "Bypasses network policies and accesses host network",
    fix := "Remove hostNetwork or set to false" }

/-- CheckHostNetwork is rule 11 (Go `rules.CheckHostNetwork`). -/
def CheckHostNetwork (resource : K8sResource) : List Finding :=
  match GetPodSpec resource with
  | none => []
  | some podSpec =>
    match getBool podSpec "hostNetwork" with
    | some true => [hostNetworkFinding resource]
    | _ => []

/-- hostPIDFinding is the hostPID finding literal of `CheckHostPIDIPC`. -/
def hostPIDFinding (resource : K8sResource) : Finding :=
  { ruleID := "host-pid-ipc", severity := High,
    kind := resource.kind, name := resource.metadata.name,
    nspace := resource.metadata.nspace,
    reason := "Uses host PID namespace",
    impact := "Can inspect and kill processes on the host",
    fix := "Remove hostPID or set to false" }

/-- hostIPCFinding is the hostIPC finding literal of `CheckHostPIDIPC`. -/
def hostIPCFinding (resource : K8sResource) : Finding :=
  { ruleID := "host-pid-ipc", severity := High,
    kind := resource.kind, name := resource.metadata.name,
    nspace := resource.metadata.nspace,
    reason := "Uses host IPC namespace",
    impact := "Can access shared memory and semaphores on host",
    fix := "Remove hostIPC or set to false" }

/-- CheckHostPIDIPC is rule 12 (Go `rules.CheckHostPIDIPC`): the hostPID
check returns first, then the hostIPC check. -/
def CheckHostPIDIPC (resource : K8sResource) : List Finding :=
  match GetPodSpec resource with
  | none => []
  | some podSpec =>
    match getBool podSpec "hostPID" with
    | some true => [hostPIDFinding resource]
    | _ =>
      match getBool podSpec "hostIPC" with
      | some true => [hostIPCFinding resource]
      | _ => []

/-- AllRules is the fixed ordered rule list (Go `rules.AllRules`). -/
def AllRules : List Rule :=
  [CheckPrivilegedContainer, CheckHostPath, CheckDockerSocket, CheckRunsAsRoot,
   CheckPrivilegeEscalation, CheckWildcardRBAC, CheckClusterRoleBindingDefaultSA,
   CheckPublicLoadBalancer, CheckNodePort, CheckLatestTag, CheckHostNetwork,
   CheckHostPIDIPC]

end rules

namespace scanner

open types parser

/-- applyRules is the inner rule loop of `Scanner.Scan`: apply every rule to
one resource, concatenating findings in rule order. -/
def applyRules (ruleList : List rules.Rule) (resource : K8sResource) : List Finding :=
  match ruleList with
  | [] => []
  | rule :: rest => rule resource ++ applyRules rest resource

/-- scanResources is the outer resource loop of `Scanner.Scan`: unsupported
kinds are skipped, otherwise all rules run, in input order. -/
def scanResources : List K8sResource → List Finding
  | [] => []
  | resource :: rest =>
    (if IsSupportedKind resource.kind then applyRules rules.AllRules resource else [])
      ++ scanResources rest

/-- filterHighOnly keeps only HIGH-severity findings, in order
(Go `scanner.filterHighOnly`). -/
def filterHighOnly : List Finding → List Finding
  | [] => []
  | f :: rest =>
    if f.severity == High then f :: filterHighOnly rest else filterHighOnly rest

/-- Scan is Go `Scanner.Scan` with the scanner's `IncludeMedium` option made
an explicit argument: run all rules over all supported resources, then filter
to HIGH only unless the option is set. -/
def Scan (includeMedium : Bool) (resources : List K8sResource) : List Finding :=
  let findings := scanResources resources
  if !includeMedium then filterHighOnly findings else findings

/-- findingKey builds the diff identity key of a finding
(Go `scanner.findingKey`). -/
def findingKey (f : Finding) : String :=
  f.ruleID ++ "|" ++ f.kind ++ "|" ++ f.name ++ "|" ++ f.nspace

/-- oldKeySet collects the keys of the old findings; it models the Go
`map[string]bool` set whose membership test drives the diff. -/
def oldKeySet : List Finding → Finset String
  | [] => ∅
  | f :: rest => insert (findingKey f) (oldKeySet rest)

/-- diffFilter keeps the new findings whose key is absent from the old key
set, in order (the second loop of Go `Scanner.Diff`). -/
def diffFilter (oldSet : Finset String) : List Finding → List Finding
  | [] => []
  | f :: rest =>
    if findingKey f ∈ oldSet then diffFilter oldSet rest
    else f :: diffFilter oldSet rest

/-- Diff is Go `Scanner.Diff`: scan both sides under the same option, then
keep the new findings whose identity key was not produced by the old side. -/
def Diff (includeMedium : Bool) (oldResources newResources : List K8sResource) :
    List Finding :=
  let oldFindings := Scan includeMedium oldResources
  let newFindings := Scan includeMedium newResources
  diffFilter (oldKeySet oldFindings) newFindings

/-- summaryStep is the loop body of Go `GetSummary`: bump the severity
counter and insert the resource key and non-empty namespace into their sets. -/
def summaryStep (st : Summary × Finset String × Finset String) (f : Finding) :
    Summary × Finset String × Finset String :=
  let s := st.1
  let s :=
    if f.severity == High then { s with high := s.high + 1 }
    else if f.severity == Medium then { s with medium := s.medium + 1 }
    else s
  let resourceSet := insert (f.kind ++ "/" ++ f.name) st.2.1
  let namespaceSet := if f.nspace != "" then insert f.nspace st.2.2 else st.2.2
  (s, resourceSet, namespaceSet)

/-- GetSummary is Go `scanner.GetSummary`: one pass over the findings, then
the two set sizes become the affected-resource and affected-namespace counts. -/
def GetSummary (findings : List Finding) : Summary :=
  let st := findings.foldl summaryStep (⟨0, 0, 0, 0⟩, ∅, ∅)
  { st.1 with resourcesAffected := st.2.1.card, namespacesAffected := st.2.2.card }

/-- exitStep is the loop body of Go `GetExitCode` over the
(hasHigh, hasMedium) flag pair. -/
def exitStep (acc : Bool × Bool) (f : Finding) : Bool × Bool :=
  if f.severity == High then (true, acc.2)
  else if f.severity == Medium then (acc.1, true)
  else acc

/-- GetExitCode is Go `scanner.GetExitCode`: scan the findings for HIGH and
MEDIUM severities, then map the flag pair to an exit code. -/
def GetExitCode (findings : List Finding) : ExitCode :=
  let flags := findings.foldl exitStep (false, false)
  if flags.1 then ExitHigh
  else if flags.2 then ExitMedium
  else ExitOK

end scanner

section ConcreteInputs

open types parser

/-- mkResource builds a resource with the given kind, name, namespace and
spec tree and empty RBAC fields, as the YAML loader would for a plain
workload document. -/
def mkResource (kind name nspace : String) (spec : List (String × Value)) :
    K8sResource :=
  { apiVersion := "v1", kind := kind,
    metadata := { name := name, nspace := nspace, labels := [], annots := [] },
    spec := spec, rules := [], roleRef := none, subjects := [] }

/-- podRunAsUser1000 is a Pod whose pod-level securityContext sets
runAsUser to 1000 and whose single container has no securityContext. -/
def podRunAsUser1000 : K8sResource :=
  mkResource "Pod" "app" "default"
    [("securityContext", Value.vMap [("runAsUser", Value.vInt 1000)]),
     ("containers", Value.vSeq [Value.vMap [("image", Value.vStr "nginx:1.25")]])]

/-- podRunAsUser0 is a Pod whose pod-level securityContext sets runAsUser
to 0 and whose single container has no securityContext. -/
def podRunAsUser0 : K8sResource :=
  mkResource "Pod" "app" "default"
    [("securityContext", Value.vMap [("runAsUser", Value.vInt 0)]),
     ("containers", Value.vSeq [Value.vMap [("image", Value.vStr "nginx:1.25")]])]

/-- svcWithTemplate is a Service whose spec structurally contains a
template.spec mapping that sets hostNetwork true. -/
def svcWithTemplate : K8sResource :=
  mkResource "Service" "svc" "default"
    [("template", Value.vMap [("spec", Value.vMap [("hostNetwork", Value.vBool true)])])]

/-- plainPod is a Pod with an empty spec mapping. -/
def plainPod : K8sResource := mkResource "Pod" "p" "" []

/-- deployWithTemplate is a Deployment with a template.spec mapping. -/
def deployWithTemplate : K8sResource :=
  mkResource "Deployment" "d" ""
    [("template", Value.vMap [("spec", Value.vMap [("hostNetwork", Value.vBool true)])])]

/-- roleWithTemplate is a Role carrying the same spec tree as
`svcWithTemplate`. -/
def roleWithTemplate : K8sResource :=
  mkResource "Role" "r" ""
    [("template", Value.vMap [("spec", Value.vMap [("hostNetwork", Value.vBool true)])])]

/-- oldPodPipe is a Pod named `a|b` in namespace `c` using the host network. -/
def oldPodPipe : K8sResource :=
  mkResource "Pod" "a|b" "c" [("hostNetwork", Value.vBool true)]

/-- newPodPipe is a Pod named `a` in namespace `b|c` using the host network. -/
def newPodPipe : K8sResource :=
  mkResource "Pod" "a" "b|c" [("hostNetwork", Value.vBool true)]

/-- oldPodPipe2 is a Pod named `x|y` in namespace `z` using the host network. -/
def oldPodPipe2 : K8sResource :=
  mkResource "Pod" "x|y" "z" [("hostNetwork", Value.vBool true)]

/-- newPodPipe2 is a Pod named `x` in namespace `y|z` using the host network. -/
def newPodPipe2 : K8sResource :=
  mkResource "Pod" "x" "y|z" [("hostNetwork", Value.vBool true)]

/-- podHostBoth is a Pod with both hostPID and hostIPC set true. -/
def podHostBoth : K8sResource :=
  mkResource "Pod" "p" "ns"
    [("hostPID", Value.vBool true), ("hostIPC", Value.vBool true)]

/-- emptyRole is a Role with an empty spec: no pod spec is extractable. -/
def emptyRole : K8sResource := mkResource "Role" "r" "ns" []

/-- fTupA shares its identity tuple with `fTupB` but differs in severity
and descriptive text. -/
def fTupA : Finding :=
  { ruleID := "host-network", severity := High, kind := "Pod", name := "n",
    nspace := "ns", reason := "a", impact := "b", fix := "c" }

/-- fTupB shares its identity tuple with `fTupA` but differs in severity
and descriptive text. -/
def fTupB : Finding :=
  { ruleID := "host-network", severity := Medium, kind := "Pod", name := "n",
    nspace := "ns", reason := "d", impact := "e", fix := "g" }

/-- fSlashA has kind `a/b` and name `c`: its resource key collides with
that of `fSlashB`. -/
def fSlashA : Finding :=
  { ruleID := "r1", severity := High, kind := "a/b", name := "c",
    nspace := "", reason := "x", impact := "y", fix := "z" }

/-- fSlashB has kind `a` and name `b/c`: its resource key collides with
that of `fSlashA`. -/
def fSlashB : Finding :=
  { ruleID := "r1", severity := High, kind := "a", name := "b/c",
    nspace := "", reason := "x", impact := "y", fix := "z" }

/-- fPipeA has name `a|b` and namespace `c`: its identity key collides
with that of `fPipeB`. -/
def fPipeA : Finding :=
  { ruleID := "r", severity := High, kind := "k", name := "a|b",
    nspace := "c", reason := "x", impact := "y", fix := "z" }

/-- fPipeB has name `a` and namespace `b|c`: its identity key collides
with that of `fPipeA`. -/
def fPipeB : Finding :=
  { ruleID := "r", severity := High, kind := "k", name := "a",
    nspace := "b|c", reason := "x", impact := "y", fix := "z" }

end ConcreteInputs

section SpecSide

open types

/-- identTuple is the identity tuple the specification names for diffing:
(ruleID, kind, name, namespace). -/
def identTuple (f : Finding) : String × String × String × String :=
  (f.ruleID, f.kind, f.name, f.nspace)

/-- sepFree holds when the string does not contain the separator character. -/
def sepFree (sep : Char) (s : String) : Bool :=
  s.data.all (fun c => c != sep)

/-- pipeFree holds when none of the four identity fields of a finding
contains the `|` separator. -/
def pipeFree (f : Finding) : Bool :=
  sepFree '|' f.ruleID && sepFree '|' f.kind && sepFree '|' f.name &&
    sepFree '|' f.nspace

end SpecSide

section HelperLemmas

open types parser scanner

/-- A separator-terminated prefix of separator-free characters determines a
unique split of the concatenation. -/
theorem append_sep_inj (sep : Char) (a : List Char) :
    ∀ (c b d : List Char), (∀ x ∈ a, x ≠ sep) → (∀ x ∈ c, x ≠ sep) →
      a ++ sep :: b = c ++ sep :: d → a = c ∧ b = d := by
  induction a with
  | nil =>
    intro c b d _ hc h
    cases c with
    | nil => simpa using h
    | cons c0 cs =>
      simp only [List.nil_append, List.cons_append, List.cons.injEq] at h
      exact absurd h.1.symm (hc c0 (List.mem_cons_self c0 cs))
  | cons a0 as ih =>
    intro c b d ha hc h
    cases c with
    | nil =>
      simp only [List.nil_append, List.cons_append, List.cons.injEq] at h
      exact absurd h.1 (ha a0 (List.mem_cons_self a0 as))
    | cons c0 cs =>
      simp only [List.cons_append, List.cons.injEq] at h
      obtain ⟨h1, h2⟩ := h
      obtain ⟨hac, hbd⟩ := ih cs b d
        (fun x hx => ha x (List.mem_cons_of_mem a0 hx))
        (fun x hx => hc x (List.mem_cons_of_mem c0 hx)) h2
      exact ⟨by rw [h1, hac], hbd⟩

/-- Strings with equal character data are equal. -/
theorem string_data_inj {a b : String} (h : a.data = b.data) : a = b := by
  cases a; cases b; exact congrArg String.mk (by simpa using h)

/-- Character data of a finding's identity key, written right-associated. -/
theorem findingKey_data (f : Finding) :
    (findingKey f).data =
      f.ruleID.data ++ '|' :: (f.kind.data ++ '|' :: (f.name.data ++ '|' :: f.nspace.data)) := by
  simp [findingKey, String.data_append]

/-- A separator-free string has no occurrence of the separator among its
characters. -/
theorem sepFree_forall {sep : Char} {s : String} (h : sepFree sep s = true) :
    ∀ x ∈ s.data, x ≠ sep := by
  intro x hx
  exact bne_iff_ne.mp (List.all_eq_true.mp h x hx)

/-- Equal identity keys of pipe-free findings force equal identity tuples. -/
theorem findingKey_inj {f g : Finding} (hf : pipeFree f = true)
    (hg : pipeFree g = true) (h : findingKey f = findingKey g) :
    identTuple f = identTuple g := by
  have hf' := hf
  simp only [pipeFree, Bool.and_eq_true] at hf' hg
  obtain ⟨⟨⟨hfr, hfk⟩, hfn⟩, _⟩ := hf'
  obtain ⟨⟨⟨hgr, hgk⟩, hgn⟩, _⟩ := hg
  have hdata : (findingKey f).data = (findingKey g).data := congrArg String.data h
  rw [findingKey_data, findingKey_data] at hdata
  obtain ⟨h1, hrest⟩ :=
    append_sep_inj '|' f.ruleID.data g.ruleID.data _ _
      (sepFree_forall hfr) (sepFree_forall hgr) hdata
  obtain ⟨h2, hrest2⟩ :=
    append_sep_inj '|' f.kind.data g.kind.data _ _
      (sepFree_forall hfk) (sepFree_forall hgk) hrest
  obtain ⟨h3, h4⟩ :=
    append_sep_inj '|' f.name.data g.name.data _ _
      (sepFree_forall hfn) (sepFree_forall hgn) hrest2
  simp only [identTuple, Prod.mk.injEq]
  exact ⟨string_data_inj h1, string_data_inj h2, string_data_inj h3, string_data_inj h4⟩

/-- Equal identity tuples force equal identity keys. -/
theorem findingKey_of_identTuple {f g : Finding} (h : identTuple f = identTuple g) :
    findingKey f = findingKey g := by
  simp only [identTuple, Prod.mk.injEq] at h
  obtain ⟨h1, h2, h3, h4⟩ := h
  simp [findingKey, h1, h2, h3, h4]

end HelperLemmas

section ScannerLemmas

open types parser scanner

/-- filterHighOnly agrees with the list filter on HIGH severity. -/
theorem filterHighOnly_eq_filter (l : List Finding) :
    filterHighOnly l = l.filter (fun f => f.severity == High) := by
  induction l with
  | nil => rfl
  | cons f rest ih =>
    simp only [filterHighOnly, List.filter_cons, ih]

/-- Scan with include-medium set is the raw concatenated rule output. -/
theorem Scan_true (rs : List K8sResource) : Scan true rs = scanResources rs := rfl

/-- Scan without include-medium filters the raw output to HIGH severity. -/
theorem Scan_false (rs : List K8sResource) :
    Scan false rs = filterHighOnly (scanResources rs) := rfl

/-- The old-side key set is the finite set of keys of the old findings. -/
theorem oldKeySet_eq (l : List Finding) :
    oldKeySet l = (l.map findingKey).toFinset := by
  induction l with
  | nil => rfl
  | cons f rest ih => simp [oldKeySet, ih]

/-- Membership in the old-side key set is an any-scan over the old findings. -/
theorem mem_oldKeySet {k : String} {L : List Finding} :
    k ∈ oldKeySet L ↔ L.any (fun g => findingKey g == k) = true := by
  rw [oldKeySet_eq, List.mem_toFinset, List.any_eq_true]
  constructor
  · intro h
    obtain ⟨g, hg, hk⟩ := List.mem_map.mp h
    exact ⟨g, hg, beq_iff_eq.mpr hk⟩
  · rintro ⟨g, hg, hk⟩
    exact List.mem_map.mpr ⟨g, hg, beq_iff_eq.mp hk⟩

/-- The diff loop over a key set built from old findings is a list filter
dropping every new finding whose key some old finding shares. -/
theorem diffFilter_eq (L : List Finding) (l : List Finding) :
    diffFilter (oldKeySet L) l =
      l.filter (fun f => !(L.any (fun g => findingKey g == findingKey f))) := by
  induction l with
  | nil => rfl
  | cons f rest ih =>
    by_cases h : findingKey f ∈ oldKeySet L
    · have hany := mem_oldKeySet.mp h
      simp only [diffFilter, if_pos h, List.filter_cons, hany, Bool.not_true]
      simp [ih]
    · cases hb : (L.any fun g => findingKey g == findingKey f) with
      | true => exact absurd (mem_oldKeySet.mpr hb) h
      | false =>
        simp only [diffFilter, if_neg h, List.filter_cons, hb, Bool.not_false]
        simp [ih]

end ScannerLemmas

section AggregatorLemmas

open types parser scanner

/-- The summary loop, from any accumulator: counters grow by the severity
counts and the two sets grow by the keys and the non-empty namespaces. -/
theorem summary_foldl (l : List Finding) :
    ∀ (s : Summary) (rs ns : Finset String),
      l.foldl summaryStep (s, rs, ns) =
        ({ s with
            high := s.high + (l.filter (fun f => f.severity == High)).length,
            medium := s.medium + (l.filter (fun f => f.severity == Medium)).length },
         rs ∪ (l.map (fun f => f.kind ++ "/" ++ f.name)).toFinset,
         ns ∪ ((l.filter (fun f => f.nspace != "")).map (fun f => f.nspace)).toFinset) := by
  induction l with
  | nil => intro s rs ns; simp
  | cons f rest ih =>
    intro s rs ns
    obtain ⟨sh, sm, sra, sna⟩ := s
    rw [List.foldl_cons, ih]
    by_cases hH : (f.severity == High) = true
    · have hM : (f.severity == Medium) = false := by rw [beq_iff_eq.mp hH]; decide
      by_cases hn : (f.nspace != "") = true
      · simp [summaryStep, hH, hM, hn, List.filter_cons, Finset.union_insert,
          Finset.insert_union, Prod.ext_iff, Summary.mk.injEq]
        omega
      · simp [summaryStep, hH, hM, hn, List.filter_cons, Finset.union_insert,
          Finset.insert_union, Prod.ext_iff, Summary.mk.injEq]
        omega
    · by_cases hM : (f.severity == Medium) = true
      · by_cases hn : (f.nspace != "") = true
        · simp [summaryStep, hH, hM, hn, List.filter_cons, Finset.union_insert,
            Finset.insert_union, Prod.ext_iff, Summary.mk.injEq]
          omega
        · simp [summaryStep, hH, hM, hn, List.filter_cons, Finset.union_insert,
            Finset.insert_union, Prod.ext_iff, Summary.mk.injEq]
          omega
      · by_cases hn : (f.nspace != "") = true
        · simp [summaryStep, hH, hM, hn, List.filter_cons, Finset.union_insert,
            Finset.insert_union, Prod.ext_iff, Summary.mk.injEq]
        · simp [summaryStep, hH, hM, hn, List.filter_cons, Finset.union_insert,
            Finset.insert_union, Prod.ext_iff, Summary.mk.injEq]

/-- GetSummary computed in closed form: severity counts and distinct key
and namespace counts. -/
theorem GetSummary_eq (l : List Finding) :
    GetSummary l =
      { high := (l.filter (fun f => f.severity == High)).length,
        medium := (l.filter (fun f => f.severity == Medium)).length,
        resourcesAffected := ((l.map (fun f => f.kind ++ "/" ++ f.name)).toFinset).card,
        namespacesAffected :=
          (((l.filter (fun f => f.nspace != "")).map (fun f => f.nspace)).toFinset).card } := by
  simp [GetSummary, summary_foldl]

/-- The exit-code loop, from any flag pair: flags absorb the any-scans for
HIGH and for MEDIUM-and-not-HIGH. -/
theorem exit_foldl (l : List Finding) :
    ∀ a b, l.foldl exitStep (a, b) =
      (a || l.any (fun f => f.severity == High),
       b || l.any (fun f => !(f.severity == High) && (f.severity == Medium))) := by
  induction l with
  | nil => intro a b; simp
  | cons f rest ih =>
    intro a b
    rw [List.foldl_cons, ih]
    by_cases hH : (f.severity == High) = true
    · simp [exitStep, hH, Bool.or_assoc]
    · by_cases hM : (f.severity == Medium) = true
      · simp [exitStep, hH, hM, Bool.or_assoc]
      · simp [exitStep, hH, hM, Bool.or_assoc]

/-- Scanning for MEDIUM-and-not-HIGH is the same as scanning for MEDIUM,
since the two severity constants differ. -/
theorem anyMedium_simp (l : List Finding) :
    l.any (fun f => !(f.severity == High) && (f.severity == Medium)) =
      l.any (fun f => f.severity == Medium) := by
  induction l with
  | nil => rfl
  | cons f rest ih =>
    simp only [List.any_cons, ih]
    by_cases hM : (f.severity == Medium) = true
    · have hH : (f.severity == High) = false := by rw [beq_iff_eq.mp hM]; decide
      simp [hM, hH]
    · simp [hM]

/-- GetExitCode computed in closed form as the two any-scans. -/
theorem GetExitCode_eq (l : List Finding) :
    GetExitCode l =
      if l.any (fun f => f.severity == High) then ExitHigh
      else if l.any (fun f => f.severity == Medium) then ExitMedium
      else ExitOK := by
  simp [GetExitCode, exit_foldl, anyMedium_simp]

/-- toFinset of a mapped list is the image of the toFinset. -/
theorem list_toFinset_map {α β : Type} [DecidableEq α] [DecidableEq β]
    (l : List α) (g : α → β) :
    (l.map g).toFinset = l.toFinset.image g := by
  induction l with
  | nil => simp
  | cons x xs ih => simp [ih]

end AggregatorLemmas

section RuleLengthLemmas

open types parser rules

/-- The privileged-container loop yields at most one finding. -/
theorem privilegedLoop_len (r : K8sResource) :
    ∀ l, (privilegedLoop r l).length ≤ 1 := by
  intro l
  induction l with
  | nil => simp [privilegedLoop]
  | cons c rest ih =>
    simp only [privilegedLoop]
    split
    · exact ih
    · split
      · exact ih
      · split
        · simp
        · exact ih

/-- The hostPath volume loop yields at most one finding. -/
theorem hostPathLoop_len (r : K8sResource) :
    ∀ l, (hostPathLoop r l).length ≤ 1 := by
  intro l
  induction l with
  | nil => simp [hostPathLoop]
  | cons v rest ih =>
    simp only [hostPathLoop]
    split
    · exact ih
    · split
      · simp
      · exact ih

/-- The docker-socket volume loop yields at most one finding. -/
theorem dockerSocketLoop_len (r : K8sResource) :
    ∀ l, (dockerSocketLoop r l).length ≤ 1 := by
  intro l
  induction l with
  | nil => simp [dockerSocketLoop]
  | cons v rest ih =>
    simp only [dockerSocketLoop]
    split
    · exact ih
    · split
      · exact ih
      · split
        · exact ih
        · split
          · simp
          · exact ih

/-- The runs-as-root container loop yields at most one finding. -/
theorem runsAsRootLoop_len (r : K8sResource) (pnr : Bool) (pu : Int) :
    ∀ l, (runsAsRootLoop r pnr pu l).length ≤ 1 := by
  intro l
  induction l with
  | nil => simp [runsAsRootLoop]
  | cons c rest ih =>
    simp only [runsAsRootLoop]
    split
    · exact ih
    · split
      · split
        · simp
        · exact ih
      · split
        · simp
        · exact ih

/-- The privilege-escalation container loop yields at most one finding. -/
theorem privEscLoop_len (r : K8sResource) :
    ∀ l, (privEscLoop r l).length ≤ 1 := by
  intro l
  induction l with
  | nil => simp [privEscLoop]
  | cons c rest ih =>
    simp only [privEscLoop]
    split
    · exact ih
    · split
      · exact ih
      · split
        · simp
        · exact ih

/-- The wildcard-RBAC rule-entry loop yields at most one finding. -/
theorem wildcardLoop_len (r : K8sResource) :
    ∀ l, (wildcardLoop r l).length ≤ 1 := by
  intro l
  induction l with
  | nil => simp [wildcardLoop]
  | cons e rest ih =>
    simp only [wildcardLoop]
    split
    · simp
    · exact ih

/-- The default-service-account subject loop yields at most one finding. -/
theorem defaultSALoop_len (r : K8sResource) :
    ∀ l, (defaultSALoop r l).length ≤ 1 := by
  intro l
  induction l with
  | nil => simp [defaultSALoop]
  | cons subj rest ih =>
    simp only [defaultSALoop]
    split
    · simp
    · exact ih

/-- The latest-tag container loop yields at most one finding. -/
theorem latestTagLoop_len (r : K8sResource) :
    ∀ l, (latestTagLoop r l).length ≤ 1 := by
  intro l
  induction l with
  | nil => simp [latestTagLoop]
  | cons c rest ih =>
    simp only [latestTagLoop]
    split
    · exact ih
    · split
      · exact ih
      · split
        · simp
        · exact ih

/-- Every one of the twelve rules yields at most one finding per resource. -/
theorem rule_len_le_one (rule : rules.Rule) (hr : rule ∈ AllRules)
    (r : K8sResource) : (rule r).length ≤ 1 := by
  simp only [AllRules, List.mem_cons, List.not_mem_nil, or_false] at hr
  rcases hr with h | h | h | h | h | h | h | h | h | h | h | h <;> subst h
  · simp only [CheckPrivilegedContainer]
    split
    · simp
    · split
      · simp
      · exact privilegedLoop_len r _
  · simp only [CheckHostPath]
    split
    · simp
    · split
      · simp
      · exact hostPathLoop_len r _
  · simp only [CheckDockerSocket]
    split
    · simp
    · split
      · simp
      · exact dockerSocketLoop_len r _
  · simp only [CheckRunsAsRoot]
    split
    · simp
    · split
      · simp
      · exact runsAsRootLoop_len r _ _ _
  · simp only [CheckPrivilegeEscalation]
    split
    · simp
    · split
      · simp
      · exact privEscLoop_len r _
  · simp only [CheckWildcardRBAC]
    split
    · simp
    · exact wildcardLoop_len r _
  · simp only [CheckClusterRoleBindingDefaultSA]
    split
    · simp
    · exact defaultSALoop_len r _
  · simp only [CheckPublicLoadBalancer]
    split
    · simp
    · split
      · simp
      · split
        · split <;> simp
        · simp
  · simp only [CheckNodePort]
    split
    · simp
    · split
      · split
        · split <;> simp
        · simp
      · simp
  · simp only [CheckLatestTag]
    split
    · simp
    · split
      · simp
      · exact latestTagLoop_len r _
  · simp only [CheckHostNetwork]
    split
    · simp
    · split <;> simp
  · simp only [CheckHostPIDIPC]
    split
    · simp
    · split
      · simp
      · split <;> simp

end RuleLengthLemmas

section MoreHelpers

open types

/-- Concatenation around a separator-free prefix splits uniquely. -/
theorem concat_sep_inj {sep : Char} {sepS : String} (hs : sepS.data = [sep])
    {a b c d : String} (ha : sepFree sep a = true) (hc : sepFree sep c = true)
    (h : a ++ sepS ++ b = c ++ sepS ++ d) : a = c ∧ b = d := by
  have hdata := congrArg String.data h
  simp only [String.data_append, hs, List.append_assoc, List.singleton_append] at hdata
  obtain ⟨h1, h2⟩ := append_sep_inj sep a.data c.data b.data d.data
    (sepFree_forall ha) (sepFree_forall hc) hdata
  exact ⟨string_data_inj h1, string_data_inj h2⟩

end MoreHelpers

section Claims

open types parser scanner

/-- C1 (code_bug evaluation): rule 4 at the failing inputs. The claim (and
the rule's own reason and fix text) require that a container with no
securityContext under a pod-level runAsUser of 1000 yields no finding and
one under a pod-level runAsUser of 0 yields a finding; the code does the
opposite, because its wholesale-inheritance branch tests
`podRunAsUser != 0` instead of `podRunAsUser == 0 || podRunAsUser == -1`. -/
theorem claim_c1_runs_as_root_bug_eval :
    rules.CheckRunsAsRoot podRunAsUser1000 = [rules.runsAsRootFinding podRunAsUser1000] ∧
    rules.CheckRunsAsRoot podRunAsUser0 = [] :=
  ⟨rfl, rfl⟩

/-- C2 (counterexample): a Service whose spec structurally contains a
template.spec mapping does yield a pod spec, and the host-network rule does
fire on it — refuting the claim that extraction is a dispatch on kind under
which Service always yields no pod spec. -/
theorem claim_c2_counterexample :
    parser.GetPodSpec svcWithTemplate = some [("hostNetwork", Value.vBool true)] ∧
    rules.CheckHostNetwork svcWithTemplate = [rules.hostNetworkFinding svcWithTemplate] :=
  ⟨rfl, rfl⟩

/-- C2 (amended): pod-spec extraction special-cases only kind Pod (the spec
root); for every other kind it is purely structural and kind-independent —
the subtree at spec.template.spec when that path is made of mappings,
otherwise the subtree at spec.jobTemplate.spec.template.spec, otherwise no
pod spec — so a Service or Role whose spec structurally contains a
template.spec mapping does yield a pod spec. -/
theorem claim_c2_get_pod_spec_amended :
    (∀ r : K8sResource, r.kind = "Pod" → GetPodSpec r = some r.spec) ∧
    (∀ (r : K8sResource) (s : List (String × Value)), r.kind ≠ "Pod" →
      (getMap r.spec "template").bind (fun t => getMap t "spec") = some s →
      GetPodSpec r = some s) ∧
    (∀ r : K8sResource, r.kind ≠ "Pod" →
      (getMap r.spec "template").bind (fun t => getMap t "spec") = none →
      GetPodSpec r =
        ((getMap r.spec "jobTemplate").bind fun jobTemplate =>
         (getMap jobTemplate "spec").bind fun spec =>
         (getMap spec "template").bind fun template =>
         getMap template "spec")) ∧
    (∀ r r' : K8sResource, r.kind ≠ "Pod" → r'.kind ≠ "Pod" →
      r.spec = r'.spec → GetPodSpec r = GetPodSpec r') := by
  refine ⟨?_, ?_, ?_, ?_⟩
  · intro r h
    simp [GetPodSpec, h]
  · intro r s h hp
    simp [GetPodSpec, h, hp]
  · intro r h hp
    simp [GetPodSpec, h, hp]
  · intro r r' h h' hs
    simp [GetPodSpec, h, h', hs]

/-- C2 (witness): the amended dispatch at concrete resources — a Pod, a
Service with a structural template.spec, and the kind-independence between
that Service and a Role with the same spec. -/
theorem claim_c2_get_pod_spec_amended_witness :
    GetPodSpec plainPod = some plainPod.spec ∧
    GetPodSpec svcWithTemplate = some [("hostNetwork", Value.vBool true)] ∧
    GetPodSpec svcWithTemplate = GetPodSpec roleWithTemplate :=
  ⟨claim_c2_get_pod_spec_amended.1 plainPod rfl,
   claim_c2_get_pod_spec_amended.2.1 svcWithTemplate _ (by decide) rfl,
   claim_c2_get_pod_spec_amended.2.2.2 svcWithTemplate roleWithTemplate
     (by decide) (by decide) rfl⟩

/-- C3 (counterexample): two pods whose host-network findings have distinct
identity tuples but equal identity keys (name `a|b` in namespace `c` versus
name `a` in namespace `b|c`); the claim demands Diff return the new finding,
the code returns nothing. -/
theorem claim_c3_counterexample :
    Diff false [oldPodPipe] [newPodPipe] = [] ∧
    Scan false [newPodPipe] = [rules.hostNetworkFinding newPodPipe] ∧
    Scan false [oldPodPipe] = [rules.hostNetworkFinding oldPodPipe] ∧
    identTuple (rules.hostNetworkFinding newPodPipe) ≠
      identTuple (rules.hostNetworkFinding oldPodPipe) := by
  refine ⟨by decide, by decide, by decide, by decide⟩

/-- C3 (amended): Diff returns exactly those findings of the new scan whose
identity KEY — the string ruleID|kind|name|namespace — equals no old
finding's key, both scans under the same include-medium option; severity and
text play no role since equal identity tuples give equal keys. Key equality
coincides with tuple equality only for pipe-free fields. -/
theorem claim_c3_diff_amended :
    (∀ (inc : Bool) (oldRs newRs : List K8sResource),
      Diff inc oldRs newRs =
        (Scan inc newRs).filter
          (fun f => !((Scan inc oldRs).any
            (fun g => findingKey g == findingKey f)))) ∧
    (∀ f g : Finding, identTuple f = identTuple g →
      findingKey f = findingKey g) := by
  constructor
  · intro inc oldRs newRs
    simp only [Diff]
    exact diffFilter_eq (Scan inc oldRs) (Scan inc newRs)
  · intro f g h
    exact findingKey_of_identTuple h

/-- C3 (witness): two findings with the same identity tuple but different
severity and text get the same identity key. -/
theorem claim_c3_diff_amended_witness :
    findingKey fTupA = findingKey fTupB :=
  claim_c3_diff_amended.2 fTupA fTupB (by decide)

/-- C4: diffing a resource list against itself yields no findings, for every
list and either severity-filter option. -/
theorem claim_c4_diff_self (inc : Bool) (X : List K8sResource) :
    Diff inc X X = [] := by
  simp only [Diff]
  rw [diffFilter_eq]
  rw [List.filter_eq_nil_iff]
  intro f hf
  have hany : ((Scan inc X).any fun g => findingKey g == findingKey f) = true :=
    List.any_eq_true.mpr ⟨f, hf, beq_self_eq_true _⟩
  simp [hany]

/-- C5: scanning without include-medium equals scanning with it and then
filtering, in order, to HIGH severity — the filter is a pure post-process on
the concatenated rule output. -/
theorem claim_c5_scan_filter (rs : List K8sResource) :
    Scan false rs = (Scan true rs).filter (fun f => f.severity == High) := by
  rw [Scan_false, Scan_true, filterHighOnly_eq_filter]

/-- C6: the exit code is the high-risk code 2 when some finding is HIGH,
else the medium-risk code 1 when some finding is MEDIUM, else the clean
code 0; an empty finding list yields 0. -/
theorem claim_c6_exit_code :
    (∀ fs : List Finding,
      GetExitCode fs =
        if fs.any (fun f => f.severity == High) then ExitHigh
        else if fs.any (fun f => f.severity == Medium) then ExitMedium
        else ExitOK) ∧
    GetExitCode ([] : List Finding) = ExitOK ∧
    ExitHigh = 2 ∧ ExitMedium = 1 ∧ ExitOK = 0 :=
  ⟨GetExitCode_eq, rfl, rfl, rfl, rfl⟩

/-- C7 (counterexample): two findings with distinct (kind, name) pairs —
kind `a/b` with name `c`, and kind `a` with name `b/c` — are counted as ONE
affected resource, because the code keys resources by the string
kind + "/" + name, refuting the distinct-pair reading for arbitrary fields. -/
theorem claim_c7_counterexample :
    (GetSummary [fSlashA, fSlashB]).resourcesAffected = 1 ∧
    (([fSlashA, fSlashB].map (fun f => (f.kind, f.name))).toFinset).card = 2 := by
  refine ⟨by decide, by decide⟩

/-- C7 (amended): the summary counts HIGH and MEDIUM findings, distinct
kind + "/" + name key strings, and distinct non-empty namespaces; the key
count coincides with the count of distinct (kind, name) pairs whenever no
kind contains the `/` separator. -/
theorem claim_c7_summary_amended (fs : List Finding) :
    GetSummary fs =
      { high := (fs.filter (fun f => f.severity == High)).length,
        medium := (fs.filter (fun f => f.severity == Medium)).length,
        resourcesAffected := ((fs.map (fun f => f.kind ++ "/" ++ f.name)).toFinset).card,
        namespacesAffected :=
          (((fs.filter (fun f => f.nspace != "")).map (fun f => f.nspace)).toFinset).card } ∧
    ((∀ f ∈ fs, sepFree '/' f.kind = true) →
      ((fs.map (fun f => f.kind ++ "/" ++ f.name)).toFinset).card =
        ((fs.map (fun f => (f.kind, f.name))).toFinset).card) := by
  constructor
  · exact GetSummary_eq fs
  · intro h
    have hmap : fs.map (fun f => f.kind ++ "/" ++ f.name) =
        (fs.map (fun f => (f.kind, f.name))).map (fun p => p.1 ++ "/" ++ p.2) := by
      rw [List.map_map]; rfl
    rw [hmap, list_toFinset_map]
    rw [Finset.card_image_of_injOn]
    intro p hp q hq hpq
    rw [Finset.mem_coe, List.mem_toFinset] at hp hq
    obtain ⟨f, hf, hfp⟩ := List.mem_map.mp hp
    obtain ⟨g, hg, hgq⟩ := List.mem_map.mp hq
    have hfree_p : sepFree '/' p.1 = true := by rw [← hfp]; exact h f hf
    have hfree_q : sepFree '/' q.1 = true := by rw [← hgq]; exact h g hg
    obtain ⟨h1, h2⟩ := concat_sep_inj rfl hfree_p hfree_q hpq
    exact Prod.ext h1 h2

/-- C7 (witness): the amended summary characterization applied to a concrete
slash-free finding list. -/
theorem claim_c7_summary_amended_witness :
    (([fTupA, fTupB].map (fun f => f.kind ++ "/" ++ f.name)).toFinset).card =
      (([fTupA, fTupB].map (fun f => (f.kind, f.name))).toFinset).card :=
  (claim_c7_summary_amended [fTupA, fTupB]).2 (by decide)

/-- C8: every rule yields at most one finding per resource (the first
matching element of any scanned sequence short-circuits), and in rule 12 a
true hostPID takes precedence: the single emitted finding is the hostPID one
regardless of hostIPC. -/
theorem claim_c8_single_finding :
    (∀ rule : rules.Rule, rule ∈ rules.AllRules →
      ∀ r : K8sResource, (rule r).length ≤ 1) ∧
    (∀ (r : K8sResource) (ps : List (String × Value)),
      GetPodSpec r = some ps → getBool ps "hostPID" = some true →
      rules.CheckHostPIDIPC r = [rules.hostPIDFinding r]) := by
  constructor
  · intro rule hr r
    exact rule_len_le_one rule hr r
  · intro r ps hps hpid
    simp [rules.CheckHostPIDIPC, hps, hpid]

/-- C8 (witness): on a Pod with both hostPID and hostIPC true, rule 12
emits exactly the single hostPID finding. -/
theorem claim_c8_single_finding_witness :
    (rules.CheckHostPIDIPC podHostBoth).length ≤ 1 ∧
    rules.CheckHostPIDIPC podHostBoth = [rules.hostPIDFinding podHostBoth] :=
  ⟨claim_c8_single_finding.1 rules.CheckHostPIDIPC (by simp [rules.AllRules]) podHostBoth,
   claim_c8_single_finding.2 podHostBoth
     [("hostPID", Value.vBool true), ("hostIPC", Value.vBool true)] rfl rfl⟩

/-- C9: whenever no pod spec is extractable from a resource, every
pod-spec-based rule returns no finding (rule evaluation is total by
construction in this embedding, so no rule can fail). -/
theorem claim_c9_no_podspec_no_finding (r : K8sResource)
    (h : GetPodSpec r = none) :
    rules.CheckPrivilegedContainer r = [] ∧ rules.CheckHostPath r = [] ∧
    rules.CheckDockerSocket r = [] ∧ rules.CheckRunsAsRoot r = [] ∧
    rules.CheckPrivilegeEscalation r = [] ∧ rules.CheckLatestTag r = [] ∧
    rules.CheckHostNetwork r = [] ∧ rules.CheckHostPIDIPC r = [] := by
  refine ⟨?_, ?_, ?_, ?_, ?_, ?_, ?_, ?_⟩ <;>
    simp [rules.CheckPrivilegedContainer, rules.CheckHostPath,
      rules.CheckDockerSocket, rules.CheckRunsAsRoot,
      rules.CheckPrivilegeEscalation, rules.CheckLatestTag,
      rules.CheckHostNetwork, rules.CheckHostPIDIPC, h]

/-- C9 (witness): a Role with an empty spec has no extractable pod spec, and
the host-network rule returns no finding on it. -/
theorem claim_c9_no_podspec_no_finding_witness :
    GetPodSpec emptyRole = none ∧ rules.CheckHostNetwork emptyRole = [] :=
  ⟨rfl, (claim_c9_no_podspec_no_finding emptyRole rfl).2.2.2.2.2.2.1⟩

/-- C10: the diff identity key concatenates the four identity fields with
the `|` separator; the encoding is not injective (name `a|b` with namespace
`c` collides with name `a` with namespace `b|c`), Diff concretely drops a
genuinely new finding whose key collides with an old one, and for findings
whose identity fields are pipe-free, key equality holds exactly at tuple
equality. -/
theorem claim_c10_finding_key :
    (∀ f : Finding, findingKey f =
      f.ruleID ++ "|" ++ f.kind ++ "|" ++ f.name ++ "|" ++ f.nspace) ∧
    (findingKey fPipeA = findingKey fPipeB ∧ identTuple fPipeA ≠ identTuple fPipeB) ∧
    (Diff false [oldPodPipe2] [newPodPipe2] = [] ∧
      Scan false [newPodPipe2] = [rules.hostNetworkFinding newPodPipe2] ∧
      Scan false [oldPodPipe2] = [rules.hostNetworkFinding oldPodPipe2] ∧
      identTuple (rules.hostNetworkFinding newPodPipe2) ≠
        identTuple (rules.hostNetworkFinding oldPodPipe2)) ∧
    (∀ f g : Finding, pipeFree f = true → pipeFree g = true →
      (findingKey f = findingKey g ↔ identTuple f = identTuple g)) := by
  refine ⟨fun f => rfl, ⟨by decide, by decide⟩,
    ⟨by decide, by decide, by decide, by decide⟩, ?_⟩
  intro f g hf hg
  exact ⟨findingKey_inj hf hg, findingKey_of_identTuple⟩

/-- C10 (witness): the pipe-free equivalence applied to two concrete
pipe-free findings sharing their identity tuple. -/
theorem claim_c10_finding_key_witness :
    findingKey fTupA = findingKey fTupB ↔ identTuple fTupA = identTuple fTupB :=
  claim_c10_finding_key.2.2.2 fTupA fTupB (by decide) (by decide)

end Claims
